import Mathlib

/-!
Verification development for the Notora data-access library (v2 mixin core).

The Python source is embedded shallowly: entity classes become a record of
attribute names, SQLAlchemy clause objects become opaque type parameters,
statements become explicit abstract syntax trees, and session execution
becomes explicit state passing over lists of rows.  Fallible code returns
Except values.  Two helpers of the repository are absent from the source
tree (the pagination calculator and the exclusive-presence validator); their
definitions below are modelled from the specification text and are marked as
such in their doc comments.
-/

namespace Notora

/-- Entity classes (SQLAlchemy declarative models) are represented by the set
of attribute names they expose; `hasAttr` models the Python `hasattr`. -/
structure EntityClass where
  attrs : List String
deriving DecidableEq

def hasAttr (m : EntityClass) (a : String) : Bool :=
  m.attrs.contains a

/-- FilterSpec / OrderSpec / OptionSpec from repositories/types.py: either a
literal clause or a factory invoked with the entity class. -/
inductive Spec (C : Type) where
  | lit (clause : C)
  | factory (f : EntityClass → C)

/-- Resolution of a spec (the `spec(self.model) if callable(spec) else spec`
idiom shared by `_resolve_filter`, `_resolve_order` and `_resolve_option`). -/
def resolveSpec (model : EntityClass) : Spec C → C
  | .lit c => c
  | .factory f => f model

/-- De-duplication preserving first occurrence, as `dict.fromkeys` and
`Result.unique()` do. -/
def dedupFirstAux [DecidableEq α] (seen : List α) : List α → List α
  | [] => []
  | x :: xs => if x ∈ seen then dedupFirstAux seen xs else x :: dedupFirstAux (x :: seen) xs

def dedupFirst [DecidableEq α] (xs : List α) : List α :=
  dedupFirstAux [] xs

/-! ## repositories/mixins/query.py: composers -/

structure FilterableMixin (C : Type) where
  model : EntityClass
  default_filters : List (Spec C)

/-- FilterableMixin.merge_filters: defaults then overrides, each resolved. -/
def FilterableMixin.merge_filters (mx : FilterableMixin C)
    (filters : Option (List (Spec C))) : List C :=
  let custom := filters.getD []
  (mx.default_filters ++ custom).map (resolveSpec mx.model)

structure LoadOptionsMixin (C : Type) where
  model : EntityClass
  default_options : List (Spec C)

/-- LoadOptionsMixin.merge_options: defaults then overrides, each resolved. -/
def LoadOptionsMixin.merge_options (mx : LoadOptionsMixin C)
    (options : Option (List (Spec C))) : List C :=
  let custom := options.getD []
  (mx.default_options ++ custom).map (resolveSpec mx.model)

/-- Resolved ordering clauses: the fallback produces `column.asc()` on an
attribute; any other resolved clause is wrapped by `clause`. -/
inductive OrderClause (C : Type) where
  | asc (attr : String)
  | clause (c : C)
deriving DecidableEq

structure OrderableMixin (C : Type) where
  model : EntityClass
  default_ordering : List (Spec (OrderClause C))
  fallback_sort_attribute : String

/-- OrderableMixin.merge_ordering: defaults then overrides, each resolved;
when nothing resolved and the model has the fallback sort attribute, a single
ascending clause on that attribute is appended. -/
def OrderableMixin.merge_ordering (mx : OrderableMixin C)
    (ordering : Option (List (Spec (OrderClause C)))) : List (OrderClause C) :=
  let custom := ordering.getD []
  let specs := mx.default_ordering ++ custom
  let resolved := specs.map (resolveSpec mx.model)
  if resolved.isEmpty && hasAttr mx.model mx.fallback_sort_attribute then
    resolved ++ [.asc mx.fallback_sort_attribute]
  else
    resolved

/-! ## repositories/mixins/query.py: ListableMixin statement building -/

/-- Abstract syntax of the built select statements: a fresh `select(model)`
with method chaining of `.options`, `.where`, `.order_by`, `.limit`,
`.offset`. -/
inductive Stmt (F G Opt : Type) where
  | selectModel (m : EntityClass)
  | withOptions (s : Stmt F G Opt) (opts : List Opt)
  | whereClause (s : Stmt F G Opt) (c : F)
  | orderBy (s : Stmt F G Opt) (clauses : List (OrderClause G))
  | withLimit (s : Stmt F G Opt) (n : Int)
  | withOffset (s : Stmt F G Opt) (n : Int)
deriving DecidableEq

/-- Configuration of a ListableMixin-composed repository (model plus the
three spec defaults plus default_limit). -/
structure ListRepo (F G Opt : Type) where
  model : EntityClass
  default_filters : List (Spec F)
  default_ordering : List (Spec (OrderClause G))
  fallback_sort_attribute : String
  default_options : List (Spec Opt)
  default_limit : Int

def ListRepo.asFilterable (mx : ListRepo F G Opt) : FilterableMixin F :=
  ⟨mx.model, mx.default_filters⟩

def ListRepo.asOrderable (mx : ListRepo F G Opt) : OrderableMixin G :=
  ⟨mx.model, mx.default_ordering, mx.fallback_sort_attribute⟩

def ListRepo.asLoadOptions (mx : ListRepo F G Opt) : LoadOptionsMixin Opt :=
  ⟨mx.model, mx.default_options⟩

/-- apply_filters: successive `.where` application of each merged clause. -/
def ListRepo.apply_filters (mx : ListRepo F G Opt) (stmt : Stmt F G Opt)
    (filters : Option (List (Spec F))) : Stmt F G Opt :=
  (mx.asFilterable.merge_filters filters).foldl Stmt.whereClause stmt

/-- apply_ordering: `.order_by` attached wholesale when clauses resolved. -/
def ListRepo.apply_ordering (mx : ListRepo F G Opt) (stmt : Stmt F G Opt)
    (ordering : Option (List (Spec (OrderClause G)))) : Stmt F G Opt :=
  let clauses := mx.asOrderable.merge_ordering ordering
  if clauses.isEmpty then stmt else .orderBy stmt clauses

/-- apply_options: `.options` attached wholesale when any option merged. -/
def ListRepo.apply_options (mx : ListRepo F G Opt) (stmt : Stmt F G Opt)
    (options : Option (List (Spec Opt))) : Stmt F G Opt :=
  let merged := mx.asLoadOptions.merge_options options
  if merged.isEmpty then stmt else .withOptions stmt merged

/-- SelectableMixin.select: fresh select over the model with options. -/
def ListRepo.selectFresh (mx : ListRepo F G Opt)
    (options : Option (List (Spec Opt))) : Stmt F G Opt :=
  mx.apply_options (.selectModel mx.model) options

/-- ListableMixin.list: `base_query or self.select(options=options)`, then
filters, then ordering, then `limit ?? default_limit`, then offset. -/
def ListRepo.list (mx : ListRepo F G Opt)
    (filters : Option (List (Spec F)))
    (limit : Option Int) (offset : Int)
    (ordering : Option (List (Spec (OrderClause G))))
    (options : Option (List (Spec Opt)))
    (base_query : Option (Stmt F G Opt)) : Stmt F G Opt :=
  let stmt := match base_query with
    | some bq => bq
    | none => mx.selectFresh options
  let stmt := mx.apply_filters stmt filters
  let stmt := mx.apply_ordering stmt ordering
  let limit_value := limit.getD mx.default_limit
  .withOffset (.withLimit stmt limit_value) offset

/-! ## repositories/mixins/write.py: UpsertableMixin -/

inductive RepoError where
  | configuration (msg : String)
deriving DecidableEq

/-- Modelled from the spec: the helper `validate_exclusive_presence` lives in
notora.utils.validation, which is not under the source tree (only its caller
in repositories/mixins/write.py is).  The specification states that
update_only and update_exclude are mutually exclusive and that violating this
is a configuration error signaled before the statement is built; the model
therefore fails exactly when both arguments are supplied. -/
def validate_exclusive_presence (a : Option α) (b : Option β) : Except RepoError Unit :=
  if a.isSome && b.isSome then
    .error (.configuration "update_only and update_exclude are mutually exclusive.")
  else
    .ok ()

structure UpsertRepo (F Opt : Type) where
  model : EntityClass
  pk_attribute : String
  default_filters : List (Spec F)
  default_options : List (Spec Opt)

/-- Result of building the ON CONFLICT DO UPDATE insert: the values payload,
the conflict target columns, the optional conflict where-clauses, the update
payload (`set_`) and the merged loader options. -/
structure UpsertStmt (F Opt V : Type) where
  valuesPayload : List (String × V)
  indexElements : List String
  indexWhere : Option (List F)
  setPayload : List (String × V)
  stmtOptions : List Opt

/-- UpsertableMixin.upsert: validates exclusivity first, then narrows the
conflict-update payload by update_only (keep listed keys) or update_exclude
(drop listed keys), merges conflict_where with the default filters, and
defaults the conflict target to the primary-key column. -/
def UpsertRepo.upsert (repo : UpsertRepo F Opt) (payload : List (String × V))
    (conflict_columns : Option (List String))
    (conflict_where : Option (List (Spec F)))
    (update_only : Option (List String))
    (update_exclude : Option (List String))
    (options : Option (List (Spec Opt))) :
    Except RepoError (UpsertStmt F Opt V) :=
  match validate_exclusive_presence update_only update_exclude with
  | .error e => .error e
  | .ok _ =>
    let update_payload :=
      match update_only with
      | some keys => payload.filter (fun kv => keys.contains kv.1)
      | none =>
        match update_exclude with
        | some keys => payload.filter (fun kv => !keys.contains kv.1)
        | none => payload
    let clauses := (FilterableMixin.mk repo.model repo.default_filters).merge_filters conflict_where
    let where_clause := if clauses.isEmpty then none else some clauses
    let index_elements :=
      match conflict_columns with
      | some cols => if cols.isEmpty then [repo.pk_attribute] else cols
      | none => [repo.pk_attribute]
    let merged_options :=
      (LoadOptionsMixin.mk repo.model repo.default_options).merge_options options
    .ok ⟨payload, index_elements, where_clause, update_payload, merged_options⟩

/-! ## Pagination calculator -/

structure PaginationMeta where
  total : Int
  limit : Int
  offset : Int
  current_page : Int
  last_page : Int
deriving DecidableEq

/-- Modelled from the spec: `PaginationMetaSchema.calculate` lives in
notora/v2/schemas/base.py, which is not under the source tree (only its unit
tests and call sites are).  Following spec section 4.5 and the unit tests:
fail when limit is non-positive or offset negative (with the messages the
tests match); when total is zero return page 1 of 1; otherwise last_page is
the ceiling of total over limit and current_page is floor(offset/limit)+1
clamped into [1, last_page]. -/
def calculate (total limit offset : Int) : Except String PaginationMeta :=
  if limit ≤ 0 then .error "limit must be a positive integer"
  else if offset < 0 then .error "offset must be zero or a positive integer"
  else if total = 0 then .ok ⟨total, limit, offset, 1, 1⟩
  else
    let last_page := (total + limit - 1) / limit
    let current_page := max 1 (min (offset / limit + 1) last_page)
    .ok ⟨total, limit, offset, current_page, last_page⟩

/-- Mathematical ceiling of the rational total/limit, used to state the
pagination claim exactly as the spec phrases it. -/
def ceilDivQ (a b : Int) : Int := ⌈(a : ℚ) / (b : ℚ)⌉

/-- Mathematical floor of the rational offset/limit. -/
def floorDivQ (a b : Int) : Int := ⌊(a : ℚ) / (b : ℚ)⌋

/-! ## services/mixins.py: SessionExecutorMixin -/

def isWordChar (c : Char) : Bool :=
  c.isAlphanum || c = '_'

/-- Maximal prefix of word characters and the remainder. -/
def wordRun : List Char → List Char × List Char
  | [] => ([], [])
  | c :: cs =>
    if isWordChar c then
      let p := wordRun cs
      (c :: p.1, p.2)
    else
      ([], c :: cs)

/-- Matches a literal character sequence at the head, returning the rest. -/
def dropLit : List Char → List Char → Option (List Char)
  | [], cs => some cs
  | _ :: _, [] => none
  | l :: ls, c :: cs => if c = l then dropLit ls cs else none

/-- Matches the regex fragment `(\w+)"`: a greedy nonempty word run followed
by a double quote; returns the captured run and the remainder. -/
def captureWordThenQuote (cs : List Char) : Option (String × List Char) :=
  let p := wordRun cs
  match p.1, p.2 with
  | [], _ => none
  | _ :: _, '\"' :: rest => some (⟨p.1⟩, rest)
  | _ :: _, _ => none

/-- Semantics of a Python `re.match` whose pattern starts with a greedy `.*`:
the tail matcher is tried at every position of the first line, rightmost
first (greedy backtracking), leftmost position last. -/
def scanMatch (step : List Char → Option α) : List Char → Option α
  | [] => step []
  | c :: cs =>
    match (if c = '\n' then none else scanMatch step cs) with
    | some r => some r
    | none => step (c :: cs)

def uniqueConstraintLit : List Char :=
  "duplicate key value violates unique constraint \"".data

def fkTableLit : List Char :=
  "insert or update on table \"".data

def fkMidLit : List Char :=
  "\" violates foreign key constraint \"".data

/-- Tail matcher for `_unique_constraint_pattern` after the `.*`. -/
def uniqueTail (cs : List Char) : Option String :=
  match dropLit uniqueConstraintLit cs with
  | none => none
  | some rest =>
    match captureWordThenQuote rest with
    | some (name, _) => some name
    | none => none

/-- Tail matcher for `_fk_constraint_pattern` after the `.*`: captures the
table name and the constraint name. -/
def fkTail (cs : List Char) : Option (String × String) :=
  match dropLit fkTableLit cs with
  | none => none
  | some r1 =>
    let p := wordRun r1
    if p.1.isEmpty then none
    else
      match dropLit fkMidLit p.2 with
      | none => none
      | some r2 =>
        match captureWordThenQuote r2 with
        | none => none
        | some (fk, _) => some (⟨p.1⟩, fk)

/-- `_unique_constraint_pattern.match(msg)`, returning the captured
constraint name. -/
def matchUnique (msg : String) : Option String :=
  scanMatch uniqueTail msg.data

/-- `_fk_constraint_pattern.match(msg)`, returning the captured table name
and constraint name. -/
def matchFK (msg : String) : Option (String × String) :=
  scanMatch fkTail msg.data

/-- Domain errors raised by the execution/translation layer, plus the
propagated originals. -/
inductive ServiceError where
  | notFound (msg : String)
  | alreadyExists (msg : String) (constraintName : String)
  | fkNotFound (msg : String) (fkName : String) (tableName : String)
  | integrity (msg : String)
  | multipleResults
deriving DecidableEq

/-- Python `dict.get(key, fallback)` over the violation-message tables. -/
def lookupMsg (table : List (String × String)) (key fallback : String) : String :=
  match table.find? (fun e => e.1 == key) with
  | some e => e.2
  | none => fallback

/-- SessionExecutorMixin._translate_integrity_error: FK pattern first, then
unique pattern, otherwise return the original error unchanged. -/
def translate_integrity_error
    (fk_violation_errors unique_violation_errors : List (String × String))
    (msg : String) : ServiceError :=
  match matchFK msg with
  | some tf => .fkNotFound (lookupMsg fk_violation_errors tf.2 "Related object not found.") tf.2 tf.1
  | none =>
    match matchUnique msg with
    | some c => .alreadyExists (lookupMsg unique_violation_errors c "Entity already exists.") c
    | none => .integrity msg

/-- Outcome of `session.execute(statement)`: either the raw rows or an
IntegrityError carrying its message text. -/
inductive ExecOutcome (α : Type) where
  | rows (rs : List α)
  | integrityError (msg : String)

/-- `result.unique().scalar_one_or_none()`: de-duplicate joined rows, then
none on zero rows, the row on one, MultipleResultsFound on more. -/
def scalar_one_or_none [DecidableEq α] (rs : List α) : Except ServiceError (Option α) :=
  match dedupFirst rs with
  | [] => .ok none
  | [x] => .ok (some x)
  | _ :: _ :: _ => .error .multipleResults

/-- SessionExecutorMixin.execute_for_one: `_execute` translates integrity
errors; a missing row becomes NotFoundError with the service message. -/
def execute_for_one [DecidableEq α]
    (fk_violation_errors unique_violation_errors : List (String × String))
    (not_found_error : String) (outcome : ExecOutcome α) : Except ServiceError α :=
  match outcome with
  | .integrityError msg =>
      .error (translate_integrity_error fk_violation_errors unique_violation_errors msg)
  | .rows rs =>
    match scalar_one_or_none rs with
    | .error e => .error e
    | .ok none => .error (.notFound not_found_error)
    | .ok (some x) => .ok x

/-! ## services/mixins/m2m.py: ManyToManySyncMixin -/

/-- ManyToManyRelation: association rows are modelled as (owner, target)
pairs, the shape of the default `build_row` dict; a custom row factory maps
into the same shape. -/
structure M2MRelation where
  payloadField : String
  associationModel : Nat
  leftKey : String
  rightKey : String
  rowFactory : Option (Nat → Nat → Nat × Nat)

def M2MRelation.buildRow (rel : M2MRelation) (ownerId targetId : Nat) : Nat × Nat :=
  match rel.rowFactory with
  | some f => f ownerId targetId
  | none => (ownerId, targetId)

/-- Association storage: rows (associationModel, owner, target). -/
abbrev AssocDB := List (Nat × Nat × Nat)

/-- Statements executed against the session by the reconciler. -/
inductive M2MOp where
  | deleteByOwner (assoc : Nat) (owner : Nat)
  | deleteByOwnerTargets (assoc : Nat) (owner : Nat) (targets : List Nat)
  | selectExisting (assoc : Nat) (owner : Nat) (targets : List Nat)
  | insertRows (assoc : Nat) (rows : List (Nat × Nat))
deriving DecidableEq

def M2MOp.isDelete : M2MOp → Bool
  | .deleteByOwner _ _ => true
  | .deleteByOwnerTargets _ _ _ => true
  | _ => false

/-- Rows inserted over a sequence of executed statements. -/
def insertedRows (ops : List M2MOp) : List (Nat × Nat) :=
  ops.foldl (fun acc op => match op with | .insertRows _ rows => acc ++ rows | _ => acc) []

/-- The select of existing target ids for the owner among the given set. -/
def existingTargets (db : AssocDB) (assoc owner : Nat) (targets : List Nat) : List Nat :=
  (db.filter (fun r => r.1 == assoc && r.2.1 == owner && targets.contains r.2.2)).map
    (fun r => r.2.2)

/-- Python `relation_payload[relation.payload_field]` guarded by the `in`
check. -/
def lookupField (payload : List (String × List Nat)) (field : String) : Option (List Nat) :=
  match payload.find? (fun e => e.1 == field) with
  | some e => some e.2
  | none => none

/-- Body of the reconciliation loop for one relation, mirroring the control
flow of sync_m2m_relations: replace deletes all owner rows first; an empty
de-duplicated target list then short-circuits; remove deletes the matching
rows; add narrows the targets by the queried existing set; remaining targets
are inserted as built rows. -/
def syncOneRelation (rel : M2MRelation) (syncMode : String) (ownerId : Nat)
    (relationPayload : List (String × List Nat)) (db : AssocDB) :
    List M2MOp × AssocDB :=
  match lookupField relationPayload rel.payloadField with
  | none => ([], db)
  | some rawIds =>
    let targetIds := dedupFirst rawIds
    let st :=
      if syncMode = "replace" then
        ([M2MOp.deleteByOwner rel.associationModel ownerId],
          db.filter (fun r => !(r.1 == rel.associationModel && r.2.1 == ownerId)))
      else
        ([], db)
    if targetIds.isEmpty then st
    else if syncMode = "remove" then
      (st.1 ++ [M2MOp.deleteByOwnerTargets rel.associationModel ownerId targetIds],
        st.2.filter (fun r =>
          !(r.1 == rel.associationModel && r.2.1 == ownerId && targetIds.contains r.2.2)))
    else
      let narrowed :=
        if syncMode = "add" then
          let existing := existingTargets st.2 rel.associationModel ownerId targetIds
          (st.1 ++ [M2MOp.selectExisting rel.associationModel ownerId targetIds],
            targetIds.filter (fun t => !existing.contains t))
        else
          (st.1, targetIds)
      if narrowed.2.isEmpty then (narrowed.1, st.2)
      else
        let rows := narrowed.2.map (rel.buildRow ownerId)
        (narrowed.1 ++ [M2MOp.insertRows rel.associationModel rows],
          st.2 ++ rows.map (fun p => (rel.associationModel, p)))

/-- ManyToManySyncMixin.sync_m2m_relations: the effective mode is the call
argument when truthy, else the configured default; an unknown mode fails
before any statement executes; relations are processed in declaration order
threading the session state. -/
def sync_m2m_relations (relations : List M2MRelation) (m2m_sync_mode : String)
    (mode : Option String) (ownerId : Nat)
    (relationPayload : List (String × List Nat)) (db : AssocDB) :
    Except String (List M2MOp × AssocDB) :=
  let syncMode :=
    match mode with
    | some s => if s = "" then m2m_sync_mode else s
    | none => m2m_sync_mode
  if !(["replace", "add", "remove"].contains syncMode) then
    .error "m2m sync mode must be replace, add, or remove."
  else
    .ok (relations.foldl
      (fun acc rel =>
        let step := syncOneRelation rel syncMode ownerId relationPayload acc.2
        (acc.1 ++ step.1, step.2))
      ([], db))

/-! ## services/mixins/delete.py: DeleteServiceMixin -/

/-- Execution of the repository delete statement (delete where pk matches,
returning the deleted rows): remaining table and returned rows. -/
def execute_delete (db : List (Nat × Nat)) (pk : Nat) :
    List (Nat × Nat) × List (Nat × Nat) :=
  (db.filter (fun r => r.1 != pk), db.filter (fun r => r.1 == pk))

/-- DeleteServiceMixin.delete: executes the delete statement and discards the
result; nothing is inspected and nothing is raised. -/
def DeleteServiceMixin.delete (db : List (Nat × Nat)) (pk : Nat) :
    List (Nat × Nat) × Except ServiceError Unit :=
  ((execute_delete db pk).1, .ok ())

/-! ## SerializerMixin, both variants -/

/-- Schema collaborator: `model_validate` turns a row into a shape. -/
structure Schema (R S : Type) where
  validate : R → S

/-- The schema argument of the raw-passthrough serializer: literal False,
None, or an explicit schema. -/
inductive SchemaArg (R S : Type) where
  | falseLit
  | noneLit
  | given (s : Schema R S)

inductive Serialized (R S : Type) where
  | raw (row : R)
  | validated (shape : S)

/-- SerializerMixin.serialize_one, raw-passthrough variant
(services/mixins.py): False returns the row, None falls back to
detail_schema, a missing schema returns the row, otherwise validate. -/
def serialize_one (detail_schema : Option (Schema R S)) (obj : R)
    (schema : SchemaArg R S) : Serialized R S :=
  match schema with
  | .falseLit => .raw obj
  | .given s => .validated (s.validate obj)
  | .noneLit =>
    match detail_schema with
    | none => .raw obj
    | some s => .validated (s.validate obj)

/-- SerializerMixin.serialize_one, strict variant
(services/mixins/serializer.py): requires a schema, raising ValueError when
neither the argument nor detail_schema provides one. -/
def serialize_one_strict (detail_schema : Option (Schema R S)) (obj : R)
    (schema : Option (Schema R S)) : Except String S :=
  match schema with
  | some s => .ok (s.validate obj)
  | none =>
    match detail_schema with
    | some s => .ok (s.validate obj)
    | none => .error "schema is required for serialized methods; use *_raw or set detail_schema."

/-! ## repositories/factory.py and repositories/base.py -/

/-- A Python class as seen by the factory: its name and the keyword
parameters its `__init__` accepts besides the positional model. -/
structure PyClass where
  name : String
  initKeywordParams : List String
deriving DecidableEq

/-- Repository.__init__(self, model, *, default_limit=50). -/
def RepositoryClass : PyClass :=
  ⟨"Repository", ["default_limit"]⟩

/-- SoftDeleteRepository.__init__(self, model, *, default_limit=50). -/
def SoftDeleteRepositoryClass : PyClass :=
  ⟨"SoftDeleteRepository", ["default_limit"]⟩

inductive PyOutcome (α : Type) where
  | ok (a : α)
  | typeError (msg : String)
deriving DecidableEq

def PyOutcome.isTypeError : PyOutcome α → Bool
  | .typeError _ => true
  | _ => false

/-- Python keyword-call semantics: every supplied keyword must be accepted by
the target `__init__`, else TypeError. -/
def callInitWithKwargs (cls : PyClass) (kwargs : List String) : PyOutcome PyClass :=
  if kwargs.all (fun k => cls.initKeywordParams.contains k) then
    .ok cls
  else
    .typeError (cls.name ++ ".__init__ got an unexpected keyword argument")

/-- build_repository: picks the class (SoftDeleteRepository when soft_delete,
else Repository, unless repo_cls overrides) and invokes it as
`repo_cls(model, config=config)`. -/
def build_repository (soft_delete : Bool) (repo_cls : Option PyClass) : PyOutcome PyClass :=
  let cls := repo_cls.getD (if soft_delete then SoftDeleteRepositoryClass else RepositoryClass)
  callInitWithKwargs cls ["config"]

end Notora

/-! ## Theorems -/

namespace Notora

lemma floorDivQ_eq (a b : Int) (hb : 0 < b) : floorDivQ a b = a / b := by
  have hb0 : b ≠ 0 := ne_of_gt hb
  have hbQ : (0 : ℚ) < (b : ℚ) := by exact_mod_cast hb
  have hkey : b * (a / b) + a % b = a := Int.ediv_add_emod a b
  have hr0 : 0 ≤ a % b := Int.emod_nonneg a hb0
  have hrb : a % b < b := Int.emod_lt_of_pos a hb
  rw [floorDivQ, Int.floor_eq_iff]
  constructor
  · rw [le_div_iff₀ hbQ]
    exact_mod_cast (by nlinarith : (a / b) * b ≤ a)
  · rw [div_lt_iff₀ hbQ]
    exact_mod_cast (by nlinarith : a < (a / b + 1) * b)

lemma ceilDivQ_eq (a b : Int) (hb : 0 < b) : ceilDivQ a b = (a + b - 1) / b := by
  have hb0 : b ≠ 0 := ne_of_gt hb
  have hbQ : (0 : ℚ) < (b : ℚ) := by exact_mod_cast hb
  have hkey : b * ((a + b - 1) / b) + (a + b - 1) % b = a + b - 1 :=
    Int.ediv_add_emod (a + b - 1) b
  have hr0 : 0 ≤ (a + b - 1) % b := Int.emod_nonneg (a + b - 1) hb0
  have hrb : (a + b - 1) % b < b := Int.emod_lt_of_pos (a + b - 1) hb
  rw [ceilDivQ, Int.ceil_eq_iff]
  constructor
  · rw [lt_div_iff₀ hbQ]
    exact_mod_cast (by nlinarith : ((a + b - 1) / b - 1) * b < a)
  · rw [div_le_iff₀ hbQ]
    exact_mod_cast (by nlinarith : a ≤ ((a + b - 1) / b) * b)

/-- Claim C1: for every total >= 0, limit > 0, offset >= 0, the pagination
calculator succeeds with last_page = max(1, ceil(total/limit)), current_page
= clamp(floor(offset/limit) + 1, 1, last_page), hence 1 <= current_page <=
last_page, and total = 0 yields page 1 of 1. -/
theorem claim_c1 (total limit offset : Int)
    (htotal : 0 ≤ total) (hlimit : 0 < limit) (hoffset : 0 ≤ offset) :
    ∃ m : PaginationMeta,
      calculate total limit offset = .ok m ∧
      m.last_page = max 1 (ceilDivQ total limit) ∧
      m.current_page = max 1 (min (floorDivQ offset limit + 1) m.last_page) ∧
      1 ≤ m.current_page ∧ m.current_page ≤ m.last_page ∧
      (total = 0 → m.current_page = 1 ∧ m.last_page = 1) := by
  have hnle : ¬ limit ≤ 0 := not_le.mpr hlimit
  have hnoff : ¬ offset < 0 := not_lt.mpr hoffset
  have hfloor : floorDivQ offset limit = offset / limit := floorDivQ_eq offset limit hlimit
  have hfl0 : 0 ≤ offset / limit := Int.ediv_nonneg hoffset hlimit.le
  by_cases h0 : total = 0
  · refine ⟨⟨total, limit, offset, 1, 1⟩, ?_, ?_, ?_, le_refl 1, le_refl 1,
      fun _ => ⟨rfl, rfl⟩⟩
    · simp [calculate, hnle, hnoff, h0]
    · show (1 : Int) = max 1 (ceilDivQ total limit)
      subst h0
      have : ceilDivQ 0 limit = 0 := by
        rw [ceilDivQ]
        norm_num
      rw [this]
      simp
    · show (1 : Int) = max 1 (min (floorDivQ offset limit + 1) 1)
      rw [hfloor]
      have hmin : min (offset / limit + 1) 1 = 1 := min_eq_right (by omega)
      rw [hmin]
      simp
  · have h1 : 1 ≤ total := by omega
    have hceil : ceilDivQ total limit = (total + limit - 1) / limit :=
      ceilDivQ_eq total limit hlimit
    have hpos : 0 < ceilDivQ total limit := by
      rw [ceilDivQ]
      refine Int.ceil_pos.mpr (div_pos ?_ ?_)
      · exact_mod_cast h1
      · exact_mod_cast hlimit
    have hlp1 : 1 ≤ (total + limit - 1) / limit := by
      rw [← hceil]
      omega
    refine ⟨⟨total, limit, offset,
        max 1 (min (offset / limit + 1) ((total + limit - 1) / limit)),
        (total + limit - 1) / limit⟩, ?_, ?_, ?_, ?_, ?_, fun hc => absurd hc h0⟩
    · simp [calculate, hnle, hnoff, h0]
    · show (total + limit - 1) / limit = max 1 (ceilDivQ total limit)
      rw [hceil, max_eq_right hlp1]
    · show max 1 (min (offset / limit + 1) ((total + limit - 1) / limit))
        = max 1 (min (floorDivQ offset limit + 1) ((total + limit - 1) / limit))
      rw [hfloor]
    · exact le_max_left _ _
    · exact max_le hlp1 (min_le_right _ _)

/-- Witness for C1 at the clamping example of the test suite: total 5,
limit 2, offset 10. -/
theorem claim_c1_witness :
    ∃ m : PaginationMeta,
      calculate 5 2 10 = .ok m ∧
      m.last_page = max 1 (ceilDivQ 5 2) ∧
      m.current_page = max 1 (min (floorDivQ 10 2 + 1) m.last_page) ∧
      1 ≤ m.current_page ∧ m.current_page ≤ m.last_page ∧
      ((5 : Int) = 0 → m.current_page = 1 ∧ m.last_page = 1) :=
  claim_c1 5 2 10 (by decide) (by decide) (by decide)

end Notora

namespace Notora

/-- Claim C2: execute_for_one returns the single entity when execution yields
exactly one row after de-duplication, fails with NotFound on zero rows,
translates an integrity violation matching the foreign-key pattern into
ForeignKeyNotFound carrying constraint and table name, otherwise one matching
the unique pattern into AlreadyExists carrying the constraint name and its
configured message or the generic fallback, and propagates any other failure
unchanged. -/
theorem claim_c2 (α : Type) [DecidableEq α]
    (fkT uqT : List (String × String)) (nf : String) :
    (∀ (rs : List α) (x : α), dedupFirst rs = [x] →
      execute_for_one fkT uqT nf (.rows rs) = .ok x) ∧
    (∀ rs : List α, dedupFirst rs = [] →
      execute_for_one fkT uqT nf (.rows rs) = .error (.notFound nf)) ∧
    (∀ msg tbl fk : String, matchFK msg = some (tbl, fk) →
      execute_for_one fkT uqT nf (.integrityError msg : ExecOutcome α)
        = .error (.fkNotFound (lookupMsg fkT fk "Related object not found.") fk tbl)) ∧
    (∀ msg c : String, matchFK msg = none → matchUnique msg = some c →
      execute_for_one fkT uqT nf (.integrityError msg : ExecOutcome α)
        = .error (.alreadyExists (lookupMsg uqT c "Entity already exists.") c)) ∧
    (∀ msg : String, matchFK msg = none → matchUnique msg = none →
      execute_for_one fkT uqT nf (.integrityError msg : ExecOutcome α)
        = .error (.integrity msg)) := by
  refine ⟨?_, ?_, ?_, ?_, ?_⟩
  · intro rs x h
    simp [execute_for_one, scalar_one_or_none, h]
  · intro rs h
    simp [execute_for_one, scalar_one_or_none, h]
  · intro msg tbl fk h
    simp [execute_for_one, translate_integrity_error, h]
  · intro msg c hfk hu
    simp [execute_for_one, translate_integrity_error, hfk, hu]
  · intro msg hfk hu
    simp [execute_for_one, translate_integrity_error, hfk, hu]

/-- Witness for C2 over Nat rows with one configured message per table. -/
theorem claim_c2_witness :
    execute_for_one [("fk_user_org", "Organization not found.")]
        [("uq_users_email", "Email already registered.")] "User not found."
        (.rows [3, 3] : ExecOutcome Nat) = .ok 3 ∧
    execute_for_one [("fk_user_org", "Organization not found.")]
        [("uq_users_email", "Email already registered.")] "User not found."
        (.rows ([] : List Nat)) = .error (.notFound "User not found.") ∧
    execute_for_one [("fk_user_org", "Organization not found.")]
        [("uq_users_email", "Email already registered.")] "User not found."
        (.integrityError
          "insert or update on table \"users\" violates foreign key constraint \"fk_user_org\""
          : ExecOutcome Nat)
      = .error (.fkNotFound (lookupMsg [("fk_user_org", "Organization not found.")]
          "fk_user_org" "Related object not found.") "fk_user_org" "users") ∧
    execute_for_one [("fk_user_org", "Organization not found.")]
        [("uq_users_email", "Email already registered.")] "User not found."
        (.integrityError
          "duplicate key value violates unique constraint \"uq_users_email\""
          : ExecOutcome Nat)
      = .error (.alreadyExists (lookupMsg [("uq_users_email", "Email already registered.")]
          "uq_users_email" "Entity already exists.") "uq_users_email") ∧
    execute_for_one [("fk_user_org", "Organization not found.")]
        [("uq_users_email", "Email already registered.")] "User not found."
        (.integrityError "deadlock detected" : ExecOutcome Nat)
      = .error (.integrity "deadlock detected") := by
  have T := claim_c2 Nat [("fk_user_org", "Organization not found.")]
    [("uq_users_email", "Email already registered.")] "User not found."
  exact ⟨T.1 [3, 3] 3 (by decide), T.2.1 [] (by decide),
    T.2.2.1 _ "users" "fk_user_org" (by decide),
    T.2.2.2.1 _ "uq_users_email" (by decide) (by decide),
    T.2.2.2.2 "deadlock detected" (by decide) (by decide)⟩

/-- Claim C3 counterexample: for ordering specs the merge of empty defaults
with empty overrides is not the empty resolved sequence: the fallback
ascending clause on the id attribute is returned instead. -/
theorem claim_c3_counterexample :
    OrderableMixin.merge_ordering (⟨⟨["id"]⟩, [], "id"⟩ : OrderableMixin Nat) (some [])
      ≠ (([] : List (Spec (OrderClause Nat))) ++ []).map (resolveSpec ⟨["id"]⟩) := by
  decide

/-- Claim C3 (amended): for filter and option specs, merge(D, O) is the
per-element resolution of D followed by O in declaration order, with
merge(D, ()) resolved D and merge((), O) resolved O, the merge being pure;
for ordering specs the same equality holds whenever at least one spec is
supplied or the entity lacks the fallback sort attribute (otherwise the
single fallback ascending clause is returned, see C4). -/
theorem claim_c3_amended (Cf Co Cg : Type) (model : EntityClass)
    (fd fo : List (Spec Cf)) (od oo : List (Spec Co))
    (gd go : List (Spec (OrderClause Cg))) (attr : String) :
    (FilterableMixin.merge_filters ⟨model, fd⟩ (some fo)
      = fd.map (resolveSpec model) ++ fo.map (resolveSpec model)) ∧
    (FilterableMixin.merge_filters ⟨model, fd⟩ (some [])
      = fd.map (resolveSpec model)) ∧
    (FilterableMixin.merge_filters ⟨model, fd⟩ none = fd.map (resolveSpec model)) ∧
    (FilterableMixin.merge_filters ⟨model, []⟩ (some fo) = fo.map (resolveSpec model)) ∧
    (LoadOptionsMixin.merge_options ⟨model, od⟩ (some oo)
      = od.map (resolveSpec model) ++ oo.map (resolveSpec model)) ∧
    (LoadOptionsMixin.merge_options ⟨model, od⟩ (some [])
      = od.map (resolveSpec model)) ∧
    (LoadOptionsMixin.merge_options ⟨model, od⟩ none = od.map (resolveSpec model)) ∧
    (LoadOptionsMixin.merge_options ⟨model, []⟩ (some oo) = oo.map (resolveSpec model)) ∧
    ((gd ++ go ≠ [] ∨ hasAttr model attr = false) →
      OrderableMixin.merge_ordering ⟨model, gd, attr⟩ (some go)
        = (gd ++ go).map (resolveSpec model)) := by
  refine ⟨?_, ?_, ?_, ?_, ?_, ?_, ?_, ?_, ?_⟩
  · simp [FilterableMixin.merge_filters]
  · simp [FilterableMixin.merge_filters]
  · simp [FilterableMixin.merge_filters]
  · simp [FilterableMixin.merge_filters]
  · simp [LoadOptionsMixin.merge_options]
  · simp [LoadOptionsMixin.merge_options]
  · simp [LoadOptionsMixin.merge_options]
  · simp [LoadOptionsMixin.merge_options]
  · intro h
    rcases h with h | h
    · cases hgg : gd ++ go with
      | nil => exact absurd hgg h
      | cons a tl => simp [OrderableMixin.merge_ordering, hgg]
    · simp [OrderableMixin.merge_ordering, h]

/-- Witness for C3 (amended) at concrete literal specs over Nat clauses. -/
theorem claim_c3_amended_witness :
    (FilterableMixin.merge_filters (⟨⟨["id"]⟩, [Spec.lit 1]⟩ : FilterableMixin Nat)
        (some [Spec.lit 2])
      = ([Spec.lit 1] : List (Spec Nat)).map (resolveSpec ⟨["id"]⟩)
        ++ ([Spec.lit 2] : List (Spec Nat)).map (resolveSpec ⟨["id"]⟩)) ∧
    (FilterableMixin.merge_filters (⟨⟨["id"]⟩, [Spec.lit 1]⟩ : FilterableMixin Nat) (some [])
      = ([Spec.lit 1] : List (Spec Nat)).map (resolveSpec ⟨["id"]⟩)) ∧
    (FilterableMixin.merge_filters (⟨⟨["id"]⟩, [Spec.lit 1]⟩ : FilterableMixin Nat) none
      = ([Spec.lit 1] : List (Spec Nat)).map (resolveSpec ⟨["id"]⟩)) ∧
    (FilterableMixin.merge_filters (⟨⟨["id"]⟩, []⟩ : FilterableMixin Nat) (some [Spec.lit 2])
      = ([Spec.lit 2] : List (Spec Nat)).map (resolveSpec ⟨["id"]⟩)) ∧
    (LoadOptionsMixin.merge_options (⟨⟨["id"]⟩, [Spec.lit 3]⟩ : LoadOptionsMixin Nat)
        (some [Spec.lit 4])
      = ([Spec.lit 3] : List (Spec Nat)).map (resolveSpec ⟨["id"]⟩)
        ++ ([Spec.lit 4] : List (Spec Nat)).map (resolveSpec ⟨["id"]⟩)) ∧
    (LoadOptionsMixin.merge_options (⟨⟨["id"]⟩, [Spec.lit 3]⟩ : LoadOptionsMixin Nat) (some [])
      = ([Spec.lit 3] : List (Spec Nat)).map (resolveSpec ⟨["id"]⟩)) ∧
    (LoadOptionsMixin.merge_options (⟨⟨["id"]⟩, [Spec.lit 3]⟩ : LoadOptionsMixin Nat) none
      = ([Spec.lit 3] : List (Spec Nat)).map (resolveSpec ⟨["id"]⟩)) ∧
    (LoadOptionsMixin.merge_options (⟨⟨["id"]⟩, []⟩ : LoadOptionsMixin Nat) (some [Spec.lit 4])
      = ([Spec.lit 4] : List (Spec Nat)).map (resolveSpec ⟨["id"]⟩)) ∧
    (OrderableMixin.merge_ordering
        (⟨⟨["id"]⟩, [Spec.lit (OrderClause.asc "name")], "id"⟩ : OrderableMixin Nat) (some [])
      = ([Spec.lit (OrderClause.asc "name")] ++ ([] : List (Spec (OrderClause Nat)))).map
          (resolveSpec ⟨["id"]⟩)) := by
  have T := claim_c3_amended Nat Nat Nat ⟨["id"]⟩ [Spec.lit 1] [Spec.lit 2]
    [Spec.lit 3] [Spec.lit 4] [Spec.lit (OrderClause.asc "name")] [] "id"
  exact ⟨T.1, T.2.1, T.2.2.1, T.2.2.2.1, T.2.2.2.2.1, T.2.2.2.2.2.1, T.2.2.2.2.2.2.1,
    T.2.2.2.2.2.2.2.1, T.2.2.2.2.2.2.2.2 (Or.inl (by simp))⟩

/-- Claim C4: when no configured default and no call-supplied ordering spec
resolves and the entity has the fallback sort attribute, merge_ordering is
exactly one ascending clause on that attribute; when at least one spec is
present, no fallback is appended. -/
theorem claim_c4 (C : Type) (mx : OrderableMixin C)
    (ordering : Option (List (Spec (OrderClause C)))) :
    (mx.default_ordering = [] → ordering.getD [] = [] →
      hasAttr mx.model mx.fallback_sort_attribute = true →
      mx.merge_ordering ordering = [.asc mx.fallback_sort_attribute]) ∧
    (mx.default_ordering ++ ordering.getD [] ≠ [] →
      mx.merge_ordering ordering
        = (mx.default_ordering ++ ordering.getD []).map (resolveSpec mx.model)) := by
  constructor
  · intro h1 h2 h3
    simp [OrderableMixin.merge_ordering, h1, h2, h3]
  · intro h
    cases hgg : mx.default_ordering ++ ordering.getD [] with
    | nil => exact absurd hgg h
    | cons a tl => simp [OrderableMixin.merge_ordering, hgg]

/-- Witness for C4: the fallback fires on an empty merge over an entity with
an id attribute, and does not fire when a spec is present. -/
theorem claim_c4_witness :
    OrderableMixin.merge_ordering (⟨⟨["id"]⟩, [], "id"⟩ : OrderableMixin Nat) none
      = [.asc "id"] ∧
    OrderableMixin.merge_ordering (⟨⟨["id"]⟩, [], "id"⟩ : OrderableMixin Nat)
        (some [Spec.lit (OrderClause.clause 5)])
      = (([] : List (Spec (OrderClause Nat))) ++ [Spec.lit (OrderClause.clause 5)]).map
          (resolveSpec ⟨["id"]⟩) := by
  refine ⟨?_, ?_⟩
  · exact (claim_c4 Nat ⟨⟨["id"]⟩, [], "id"⟩ none).1 rfl rfl (by decide)
  · exact (claim_c4 Nat ⟨⟨["id"]⟩, [], "id"⟩ (some [Spec.lit (OrderClause.clause 5)])).2
      (by simp)

end Notora

namespace Notora

/-- Claim C5: the upsert builder with both update_only and update_exclude
non-empty fails with a configuration error before any statement is produced;
with only one or neither supplied it succeeds, and the conflict-update
payload is the full payload narrowed by update_only (keep listed keys) or
update_exclude (drop listed keys), or the full payload. -/
theorem claim_c5 (F Opt V : Type) (repo : UpsertRepo F Opt)
    (payload : List (String × V)) (cc : Option (List String))
    (cw : Option (List (Spec F))) (opts : Option (List (Spec Opt))) :
    (∀ l1 l2 : List String, l1 ≠ [] → l2 ≠ [] →
      repo.upsert payload cc cw (some l1) (some l2) opts
        = .error (.configuration
            "update_only and update_exclude are mutually exclusive.")) ∧
    (∀ l1 : List String, ∃ stmt,
      repo.upsert payload cc cw (some l1) none opts = .ok stmt ∧
      stmt.setPayload = payload.filter (fun kv => l1.contains kv.1)) ∧
    (∀ l2 : List String, ∃ stmt,
      repo.upsert payload cc cw none (some l2) opts = .ok stmt ∧
      stmt.setPayload = payload.filter (fun kv => !l2.contains kv.1)) ∧
    (∃ stmt, repo.upsert payload cc cw none none opts = .ok stmt ∧
      stmt.setPayload = payload) := by
  refine ⟨fun l1 l2 _ _ => rfl, fun l1 => ⟨_, rfl, rfl⟩, fun l2 => ⟨_, rfl, rfl⟩,
    ⟨_, rfl, rfl⟩⟩

/-- Witness for C5 on a two-key payload over Nat values. -/
theorem claim_c5_witness :
    (UpsertRepo.upsert (⟨⟨["id"]⟩, "id", [], []⟩ : UpsertRepo Nat Nat)
        [("a", (1 : Nat)), ("b", 2)] none none (some ["a"]) (some ["b"]) none
      = .error (.configuration
          "update_only and update_exclude are mutually exclusive.")) ∧
    (∃ stmt, UpsertRepo.upsert (⟨⟨["id"]⟩, "id", [], []⟩ : UpsertRepo Nat Nat)
        [("a", (1 : Nat)), ("b", 2)] none none (some ["a"]) none none = .ok stmt ∧
      stmt.setPayload = [("a", (1 : Nat)), ("b", 2)].filter (fun kv => ["a"].contains kv.1)) ∧
    (∃ stmt, UpsertRepo.upsert (⟨⟨["id"]⟩, "id", [], []⟩ : UpsertRepo Nat Nat)
        [("a", (1 : Nat)), ("b", 2)] none none none (some ["b"]) none = .ok stmt ∧
      stmt.setPayload = [("a", (1 : Nat)), ("b", 2)].filter (fun kv => !(["b"].contains kv.1))) ∧
    (∃ stmt, UpsertRepo.upsert (⟨⟨["id"]⟩, "id", [], []⟩ : UpsertRepo Nat Nat)
        [("a", (1 : Nat)), ("b", 2)] none none none none none = .ok stmt ∧
      stmt.setPayload = [("a", (1 : Nat)), ("b", 2)]) := by
  have T := claim_c5 Nat Nat Nat ⟨⟨["id"]⟩, "id", [], []⟩
    [("a", (1 : Nat)), ("b", 2)] none none none
  exact ⟨T.1 ["a"] ["b"] (by decide) (by decide), T.2.1 ["a"], T.2.2.1 ["b"], T.2.2.2⟩

/-- Claim C6: in add mode the reconciler de-duplicates the requested ids
preserving first occurrence, queries the existing target ids for the owner
among that set, inserts rows only for the difference, and executes no delete
statement; duplicates and already-present ids are silently ignored. -/
theorem claim_c6 (rel : M2MRelation) (defMode : String) (owner : Nat)
    (ids : List Nat) (db : AssocDB) :
    ∃ ops db2,
      sync_m2m_relations [rel] defMode (some "add") owner
          [(rel.payloadField, ids)] db = .ok (ops, db2) ∧
      ops.all (fun op => !op.isDelete) = true ∧
      insertedRows ops
        = ((dedupFirst ids).filter (fun t =>
            !(existingTargets db rel.associationModel owner
              (dedupFirst ids)).contains t)).map (rel.buildRow owner) ∧
      db2 = db ++ (((dedupFirst ids).filter (fun t =>
            !(existingTargets db rel.associationModel owner
              (dedupFirst ids)).contains t)).map (rel.buildRow owner)).map
            (fun p => (rel.associationModel, p)) := by
  have hlook : lookupField [(rel.payloadField, ids)] rel.payloadField = some ids := by
    simp [lookupField]
  have hsync : sync_m2m_relations [rel] defMode (some "add") owner
      [(rel.payloadField, ids)] db
      = .ok (syncOneRelation rel "add" owner [(rel.payloadField, ids)] db) := by
    simp [sync_m2m_relations]
  cases hd : dedupFirst ids with
  | nil =>
    refine ⟨[], db, ?_, rfl, ?_, ?_⟩
    · rw [hsync]
      simp [syncOneRelation, hlook, hd]
    · simp [insertedRows, hd]
    · simp [hd]
  | cons a tl =>
    have hs : syncOneRelation rel "add" owner [(rel.payloadField, ids)] db
        = (if ((a :: tl).filter (fun t =>
              !(existingTargets db rel.associationModel owner (a :: tl)).contains t)).isEmpty
           then ([.selectExisting rel.associationModel owner (a :: tl)], db)
           else ([.selectExisting rel.associationModel owner (a :: tl),
              .insertRows rel.associationModel (((a :: tl).filter (fun t =>
                !(existingTargets db rel.associationModel owner (a :: tl)).contains t)).map
                (rel.buildRow owner))],
            db ++ (((a :: tl).filter (fun t =>
                !(existingTargets db rel.associationModel owner (a :: tl)).contains t)).map
                (rel.buildRow owner)).map (fun p => (rel.associationModel, p)))) := by
      simp [syncOneRelation, hlook, hd]
    cases hn : (a :: tl).filter (fun t =>
        !(existingTargets db rel.associationModel owner (a :: tl)).contains t) with
    | nil =>
      refine ⟨[.selectExisting rel.associationModel owner (a :: tl)], db, ?_, rfl, ?_, ?_⟩
      · rw [hsync, hs, hn]
        simp
      · simp [insertedRows, hd, hn]
      · simp [hd, hn]
    | cons b tl2 =>
      refine ⟨[.selectExisting rel.associationModel owner (a :: tl),
          .insertRows rel.associationModel ((b :: tl2).map (rel.buildRow owner))],
        db ++ ((b :: tl2).map (rel.buildRow owner)).map (fun p => (rel.associationModel, p)),
        ?_, rfl, ?_, ?_⟩
      · rw [hsync, hs, hn]
        simp
      · simp [insertedRows, hd, hn]
      · simp [hd, hn]

/-- Witness for C6 at the spec example: existing targets 1, 2 for owner 7 and
requested set 2, 3; only id 3 is inserted and no delete occurs. -/
theorem claim_c6_witness :
    ∃ ops db2,
      sync_m2m_relations [⟨"tags", 0, "owner_id", "tag_id", none⟩] "replace" (some "add") 7
          [("tags", [2, 3])] [(0, 7, 1), (0, 7, 2)] = .ok (ops, db2) ∧
      ops.all (fun op => !op.isDelete) = true ∧
      insertedRows ops
        = ((dedupFirst [2, 3]).filter (fun t =>
            !(existingTargets [(0, 7, 1), (0, 7, 2)] 0 7 (dedupFirst [2, 3])).contains t)).map
            (M2MRelation.buildRow ⟨"tags", 0, "owner_id", "tag_id", none⟩ 7) ∧
      db2 = [(0, 7, 1), (0, 7, 2)] ++ (((dedupFirst [2, 3]).filter (fun t =>
            !(existingTargets [(0, 7, 1), (0, 7, 2)] 0 7 (dedupFirst [2, 3])).contains t)).map
            (M2MRelation.buildRow ⟨"tags", 0, "owner_id", "tag_id", none⟩ 7)).map
            (fun p => (0, p)) :=
  claim_c6 ⟨"tags", 0, "owner_id", "tag_id", none⟩ "replace" 7 [2, 3] [(0, 7, 1), (0, 7, 2)]

end Notora

namespace Notora

/-- Claim C7 counterexample: with an empty table and primary key 1 the delete
statement returns zero rows, yet the service delete verb completes normally
instead of failing with NotFound. -/
theorem claim_c7_counterexample :
    (execute_delete [] 1).2 = [] ∧ DeleteServiceMixin.delete [] 1 = ([], .ok ()) :=
  ⟨rfl, rfl⟩

/-- Claim C7 (amended): the service delete-by-primary-key verb executes the
delete statement and discards its result, returning without error even when
the statement returns zero rows; no NotFound signal is raised. -/
theorem claim_c7_amended (db : List (Nat × Nat)) (pk : Nat)
    (h : ∀ r ∈ db, r.1 ≠ pk) :
    (execute_delete db pk).2 = [] ∧ DeleteServiceMixin.delete db pk = (db, .ok ()) := by
  have hfilter : db.filter (fun r => r.1 != pk) = db :=
    List.filter_eq_self.mpr (fun r hr => by simpa using h r hr)
  have hmatch : db.filter (fun r => r.1 == pk) = [] := by
    rw [List.filter_eq_nil_iff]
    exact fun r hr => by simpa using h r hr
  exact ⟨by simp [execute_delete, hmatch], by simp [DeleteServiceMixin.delete, execute_delete, hfilter]⟩

/-- Witness for C7 (amended): deleting key 1 from a table holding only key 2
leaves the table unchanged and raises nothing. -/
theorem claim_c7_amended_witness :
    (execute_delete [(2, 0)] 1).2 = [] ∧
    DeleteServiceMixin.delete [(2, 0)] 1 = ([(2, 0)], .ok ()) :=
  claim_c7_amended [(2, 0)] 1 (by decide)

/-- Claim C8: the raw-passthrough serializer returns the raw row when
serialization is disabled for the call (schema False), validates through the
supplied or configured schema otherwise; the strict variant instead fails
when no schema is available. -/
theorem claim_c8 (R S : Type) (detail : Option (Schema R S)) (obj : R) (s : Schema R S) :
    serialize_one detail obj .falseLit = .raw obj ∧
    serialize_one detail obj (.given s) = .validated (s.validate obj) ∧
    serialize_one (some s) obj .noneLit = .validated (s.validate obj) ∧
    serialize_one_strict (none : Option (Schema R S)) obj none
      = .error "schema is required for serialized methods; use *_raw or set detail_schema." :=
  ⟨rfl, rfl, rfl, rfl⟩

/-- Claim C9: build_repository with repo_cls omitted or set to Repository or
SoftDeleteRepository always raises TypeError, because it calls
repo_cls(model, config=config) while both init signatures accept only the
default_limit keyword. -/
theorem claim_c9 (soft_delete : Bool) :
    (build_repository soft_delete none).isTypeError = true ∧
    (build_repository soft_delete (some RepositoryClass)).isTypeError = true ∧
    (build_repository soft_delete (some SoftDeleteRepositoryClass)).isTypeError = true := by
  cases soft_delete <;> exact ⟨rfl, rfl, rfl⟩

/-- Claim C10: when base_query is supplied, the list builder produces the
same statement for any two options arguments, and load options (including
default options) are not applied at all: the result is base_query with
filters, ordering, limit and offset only. -/
theorem claim_c10 (F G Opt : Type) (mx : ListRepo F G Opt)
    (filters : Option (List (Spec F))) (limit : Option Int) (offset : Int)
    (ordering : Option (List (Spec (OrderClause G))))
    (o1 o2 : Option (List (Spec Opt))) (bq : Stmt F G Opt) :
    mx.list filters limit offset ordering o1 (some bq)
      = mx.list filters limit offset ordering o2 (some bq) ∧
    mx.list filters limit offset ordering o1 (some bq)
      = .withOffset (.withLimit (mx.apply_ordering (mx.apply_filters bq filters) ordering)
          (limit.getD mx.default_limit)) offset :=
  ⟨rfl, rfl⟩

end Notora
